import Mathlib

/-!
Verification development for the price-tracker repository.

The repository ships the React frontend (src/frontend) together with the
design document of its scrape-orchestration and price-change-detection
core.  The backend core itself (proxy pool manager, marketplace parsers,
retry controller, scheduler, alert engine) is not part of the source
tree, so those components are modelled here directly from the design
document, section by section; the frontend behaviour (the pause/resume
toggle of ProductList.js) is embedded from the JavaScript source.

Prices are represented in integer cents, timestamps as natural numbers.
-/

namespace PriceTracker

/-- Marketplace enumeration from the data model (amazon, ebay, aliexpress). -/
inductive Marketplace
  | amazon
  | ebay
  | aliexpress
deriving DecidableEq, Repr

/-- Product status enumeration from the data model (active, paused, error). -/
inductive Status
  | active
  | paused
  | error
deriving DecidableEq, Repr

/-- Alert trigger reasons of the Price-Change Engine. -/
inductive TriggerReason
  | target_reached
  | new_low
  | percent_drop
deriving DecidableEq, Repr

/-- Modelled from the spec: Product record of section 3 (the backend data
model is not in the source tree).  Prices are in cents. -/
structure Product where
  id : Nat
  url : String
  marketplace : Marketplace
  target_price : Option Nat
  check_interval : Nat
  status : Status
  current_price : Nat
  last_checked : Nat
  consecutive_failure_count : Nat
deriving DecidableEq, Repr

/-- Modelled from the spec: ScrapedRecord, the normalized parser output. -/
structure ScrapedRecord where
  price : Nat
  in_stock : Bool
  title : Option String
  image_url : Option String
  scraped_at : Nat
deriving DecidableEq, Repr

/-- Modelled from the spec: PriceSnapshot, an immutable historical point. -/
structure PriceSnapshot where
  product_id : Nat
  price : Nat
  in_stock : Bool
  scraped_at : Nat
deriving DecidableEq, Repr

/-- Modelled from the spec: AlertEvent, output of the Price-Change Engine. -/
structure AlertEvent where
  product_id : Nat
  old_price : Nat
  new_price : Nat
  trigger_reason : TriggerReason
  dedup_key : Nat × TriggerReason
deriving DecidableEq, Repr

/-- Modelled from the spec: the externally supplied configuration constants
of section 6 (percent-drop threshold, dedup cooldown window, retry attempt
count, failure thresholds, backoff base/cap, concurrency caps). -/
structure CoreConfig where
  percentDropThreshold : Nat
  dedupWindow : Nat
  maxAttempts : Nat
  failureThreshold : Nat
  proxyFailThreshold : Nat
  backoffBase : Nat
  backoffCap : Nat
  globalLimit : Nat
  perMarketLimit : Nat
deriving DecidableEq, Repr

/-! ### Price-Change & Alert Engine (spec section 4.6) -/

/-- Modelled from the spec: engine-visible persistent state — the append-only
snapshot history and the log of emitted alerts
(product id, trigger reason, emission time) used for deduplication. -/
structure EngineState where
  history : List PriceSnapshot
  emitted : List (Nat × TriggerReason × Nat)
deriving DecidableEq, Repr

/-- Snapshots of one product, newest first. -/
def productHistory (st : EngineState) (pid : Nat) : List PriceSnapshot :=
  st.history.filter (fun s => decide (s.product_id = pid))

/-- Minimum price over a snapshot list (none when empty). -/
def histMin : List PriceSnapshot → Option Nat
  | [] => none
  | s :: rest =>
    match histMin rest with
    | none => some s.price
    | some m => some (min s.price m)

/-- Modelled from the spec: decision rule 1 — target price set, new price at
or below target, previous current price strictly above target
(edge-triggered). -/
def targetHit (p : Product) (r : ScrapedRecord) : Bool :=
  match p.target_price with
  | some t => decide (r.price ≤ t ∧ t < p.current_price)
  | none => false

/-- Modelled from the spec: decision rule 2 — strictly below the minimum of
all prior snapshots of this product. -/
def isNewLow (hist : List PriceSnapshot) (r : ScrapedRecord) : Bool :=
  match histMin hist with
  | none => false
  | some m => decide (r.price < m)

/-- Modelled from the spec: decision rule 3 — at least the configured
percentage below the immediately preceding snapshot's price. -/
def isPercentDrop (cfg : CoreConfig) (hist : List PriceSnapshot) (r : ScrapedRecord) : Bool :=
  match hist.head? with
  | none => false
  | some s => decide (r.price * 100 ≤ s.price * (100 - cfg.percentDropThreshold))

/-- Modelled from the spec: the decision rules of section 4.6 evaluated in
order, first match wins. -/
def rawTrigger (cfg : CoreConfig) (p : Product) (hist : List PriceSnapshot)
    (r : ScrapedRecord) : Option TriggerReason :=
  if targetHit p r then some .target_reached
  else if isNewLow hist r then some .new_low
  else if isPercentDrop cfg hist r then some .percent_drop
  else none

/-- Modelled from the spec: deduplication — an alert for the same product and
trigger reason is suppressed if one was already emitted within the cooldown
window. -/
def dedupBlocked (emitted : List (Nat × TriggerReason × Nat)) (pid : Nat)
    (rsn : TriggerReason) (now window : Nat) : Bool :=
  emitted.any (fun e => decide (e.1 = pid ∧ e.2.1 = rsn ∧ now < e.2.2 + window))

/-- The snapshot recorded for one evaluate call. -/
def mkSnapshot (p : Product) (r : ScrapedRecord) : PriceSnapshot :=
  { product_id := p.id, price := r.price, in_stock := r.in_stock,
    scraped_at := r.scraped_at }

/-- Modelled from the spec: `evaluate(product, record) -> AlertEvent?` of
section 4.6.  Applies the ordered decision rules, suppresses duplicates
within the cooldown window, records any emission in the dedup log, and
always appends exactly one snapshot. -/
def evaluate (cfg : CoreConfig) (st : EngineState) (p : Product)
    (r : ScrapedRecord) : Option AlertEvent × EngineState :=
  let hist := productHistory st p.id
  let alert : Option AlertEvent :=
    match rawTrigger cfg p hist r with
    | none => none
    | some rsn =>
      if dedupBlocked st.emitted p.id rsn r.scraped_at cfg.dedupWindow then none
      else some { product_id := p.id, old_price := p.current_price,
                  new_price := r.price, trigger_reason := rsn,
                  dedup_key := (p.id, rsn) }
  let emitted' :=
    match alert with
    | some a => (p.id, a.trigger_reason, r.scraped_at) :: st.emitted
    | none => st.emitted
  (alert, { history := mkSnapshot p r :: st.history, emitted := emitted' })

/-! ### Proxy Pool Manager (spec section 4.1) -/

/-- Proxy kind enumeration (residential, datacenter). -/
inductive ProxyKind
  | residential
  | datacenter
deriving DecidableEq, Repr

/-- Modelled from the spec: ProxyRecord, a pool member. -/
structure ProxyRecord where
  endpoint : Nat
  kind : ProxyKind
  consecutive_failures : Nat
  cooldown_until : Nat
  last_used_at : Nat
deriving DecidableEq, Repr

/-- Residential proxies are preferred over datacenter ones. -/
def kindRank : ProxyKind → Nat
  | .residential => 0
  | .datacenter => 1

/-- Modelled from the spec: selection preference — oldest last use first,
then fewest consecutive failures, ties broken by kind preference. -/
def preferredOver (a b : ProxyRecord) : Bool :=
  if a.last_used_at ≠ b.last_used_at then decide (a.last_used_at < b.last_used_at)
  else if a.consecutive_failures ≠ b.consecutive_failures then
    decide (a.consecutive_failures < b.consecutive_failures)
  else decide (kindRank a.kind < kindRank b.kind)

/-- The most preferred record of a list, if any. -/
def pickBest : List ProxyRecord → Option ProxyRecord
  | [] => none
  | q :: rest =>
    match pickBest rest with
    | none => some q
    | some b => some (if preferredOver b q then b else q)

/-- A proxy is eligible when its cooldown has expired. -/
def eligibleProxy (now : Nat) (q : ProxyRecord) : Bool :=
  decide (q.cooldown_until ≤ now)

/-- Modelled from the spec: `acquire(marketplace) -> ProxyRecord | Exhausted`
of section 4.1 — select among proxies not in cooldown; none means Exhausted. -/
def acquire (pool : List ProxyRecord) (now : Nat) : Option ProxyRecord :=
  pickBest (pool.filter (eligibleProxy now))

/-- Modelled from the spec: acquisition that additionally never returns the
avoided endpoint — used by the retry controller to force proxy rotation
after a blocked attempt. -/
def acquireAvoiding (pool : List ProxyRecord) (now : Nat) (avoid : Option Nat) :
    Option ProxyRecord :=
  pickBest (pool.filter (fun q =>
    eligibleProxy now q &&
      match avoid with
      | some e => decide (q.endpoint ≠ e)
      | none => true))

/-- Modelled from the spec: exponential backoff, capped. -/
def backoff (cfg : CoreConfig) (f : Nat) : Nat :=
  min (cfg.backoffBase * 2 ^ f) cfg.backoffCap

/-- Modelled from the spec: effect of `report(proxy, success=false)` on the
reported record — increment consecutive failures; once past the threshold,
set the cooldown to now plus the exponential backoff. -/
def failUpdate (cfg : CoreConfig) (now : Nat) (q : ProxyRecord) : ProxyRecord :=
  let f := q.consecutive_failures + 1
  { q with consecutive_failures := f,
           cooldown_until :=
             if cfg.proxyFailThreshold < f then now + backoff cfg f
             else q.cooldown_until }

/-- Modelled from the spec: effect of `report(proxy, success=true)` — reset
consecutive failures and clear the cooldown. -/
def succUpdate (q : ProxyRecord) : ProxyRecord :=
  { q with consecutive_failures := 0, cooldown_until := 0 }

/-- Modelled from the spec: `report(proxy, success)` of section 4.1, applied
to the pool entry with the reported endpoint. -/
def report (cfg : CoreConfig) (pool : List ProxyRecord) (e : Nat)
    (success : Bool) (now : Nat) : List ProxyRecord :=
  pool.map (fun q =>
    if q.endpoint = e then (if success then succUpdate q else failUpdate cfg now q)
    else q)

/-- Record the time a proxy was handed out. -/
def markUsed (pool : List ProxyRecord) (e : Nat) (now : Nat) : List ProxyRecord :=
  pool.map (fun q => if q.endpoint = e then { q with last_used_at := now } else q)

/-! ### Marketplace Parser Registry (spec section 4.2) -/

/-- Modelled from the spec: extracted raw page content handed to the price
normalizer (marketplace-specific markup extraction is a pluggable
capability, so the extracted fields are the model's input). -/
structure RawContent where
  priceText : Option String
  outOfStockSignal : Bool
  title : Option String
  image_url : Option String
deriving DecidableEq, Repr

/-- Parse failure classification of section 4.2. -/
inductive ParseError
  | missingPrice
  | unparseablePrice
  | nonpositivePrice
deriving DecidableEq, Repr

/-- Currency symbols, thousands separators and spacing stripped before
numeric parsing. -/
def isJunkChar (c : Char) : Bool :=
  c = '$' || c = '€' || c = '£' || c = ',' || c = ' '

/-- Accumulate a decimal digit string; fails on any non-digit. -/
def digitsValAux : List Char → Nat → Option Nat
  | [], acc => some acc
  | c :: rest, acc =>
    if c.isDigit then digitsValAux rest (acc * 10 + (c.toNat - 48)) else none

/-- Value of a nonempty all-digit string. -/
def digitsVal : List Char → Option Nat
  | [] => none
  | c :: rest => digitsValAux (c :: rest) 0

/-- Split at the first decimal point, if present. -/
def splitAtDot : List Char → List Char × Option (List Char)
  | [] => ([], none)
  | c :: rest =>
    if c = '.' then ([], some rest)
    else
      let (a, b) := splitAtDot rest
      (c :: a, b)

/-- Modelled from the spec: fixed-precision (2 decimal places) magnitude in
cents; at most two fraction digits are accepted. -/
def parseCentsNat (cs : List Char) : Option Nat :=
  match splitAtDot cs with
  | (ip, none) => (digitsVal ip).map (· * 100)
  | (ip, some f) =>
    match digitsVal ip, digitsVal f with
    | some n, some fr =>
      if f.length = 1 then some (n * 100 + fr * 10)
      else if f.length = 2 then some (n * 100 + fr)
      else none
    | _, _ => none

/-- Signed price value in cents. -/
def parseCents : List Char → Option Int
  | '-' :: rest => (parseCentsNat rest).map (fun n => -(n : Int))
  | cs => (parseCentsNat cs).map (fun n => (n : Int))

/-- Modelled from the spec: price normalization — strip currency symbols and
thousands separators, then parse as a decimal with two places. -/
def normalizePrice (s : String) : Option Int :=
  parseCents (s.data.filter (fun c => !isJunkChar c))

/-- Modelled from the spec: `parse(marketplace, rawContent) ->
ScrapedRecord | ParseError` of section 4.2.  Missing or unparseable prices
and non-positive values are ParseErrors; absence of an out-of-stock signal
defaults to in stock (fail-open); title/image absence is non-fatal. -/
def parse (mk : Marketplace) (raw : RawContent) (now : Nat) :
    Except ParseError ScrapedRecord :=
  match raw.priceText with
  | none => .error .missingPrice
  | some s =>
    match normalizePrice s with
    | none => .error .unparseablePrice
    | some v =>
      if v ≤ 0 then .error .nonpositivePrice
      else .ok { price := v.toNat, in_stock := !raw.outOfStockSignal,
                 title := raw.title, image_url := raw.image_url,
                 scraped_at := now }

/-! ### Retry/Backoff Controller (spec section 4.4) -/

/-- Fetch failure classification of section 4.3. -/
inductive FetchError
  | timeout
  | network
  | blocked
deriving DecidableEq, Repr

/-- Result of one fetch attempt (the fetch executor is injected, per the
design note on testing retry policy without real network calls). -/
inductive FetchResult
  | content (raw : RawContent)
  | failed (e : FetchError)
deriving DecidableEq, Repr

/-- Job-level outcome after the retry policy gives up. -/
inductive TerminalFailure
  | exhausted
  | capacity
deriving DecidableEq, Repr

/-- Observable events of one retry-bounded scrape job, in order. -/
inductive TraceEv
  | acquired (endpoint : Nat)
  | attempted (n : Nat) (endpoint : Nat)
  | reportedFailure (endpoint : Nat)
  | reportedSuccess (endpoint : Nat)
deriving DecidableEq, Repr

instance {ε α : Type} [DecidableEq ε] [DecidableEq α] : DecidableEq (Except ε α) := fun
  | .error a, .error b =>
    if h : a = b then .isTrue (by rw [h])
    else .isFalse (by intro hc; cases hc; exact h rfl)
  | .ok a, .ok b =>
    if h : a = b then .isTrue (by rw [h])
    else .isFalse (by intro hc; cases hc; exact h rfl)
  | .error _, .ok _ => .isFalse (by intro hc; cases hc)
  | .ok _, .error _ => .isFalse (by intro hc; cases hc)

/-- Outcome, final pool state and event trace of one scrape job. -/
structure RetryResult where
  outcome : Except TerminalFailure ScrapedRecord
  pool : List ProxyRecord
  trace : List TraceEv
deriving DecidableEq, Repr

/-- Modelled from the spec: the bounded retry loop of section 4.4.  Before
each attempt a proxy is acquired (Exhausted fails the job as capacity);
timeout/network/blocked report proxy failure and retry, blocked additionally
forces rotation away from the proxy just used; a parse error does not
penalize the proxy and is retried at most once; success reports proxy
success and returns immediately; running out of attempts is exhausted. -/
def retryGo (cfg : CoreConfig) (mk : Marketplace) (fetch : Nat → FetchResult)
    (now : Nat) :
    Nat → Nat → List ProxyRecord → Option Nat → Nat → List TraceEv → RetryResult
  | _, 0, pool, _, _, trace => ⟨.error .exhausted, pool, trace⟩
  | attempt, remaining + 1, pool, avoid, parseErrs, trace =>
    match acquireAvoiding pool now avoid with
    | none => ⟨.error .capacity, pool, trace⟩
    | some pr =>
      let pool1 := markUsed pool pr.endpoint now
      let trace1 := trace ++ [.acquired pr.endpoint, .attempted attempt pr.endpoint]
      match fetch attempt with
      | .failed .blocked =>
        retryGo cfg mk fetch now (attempt + 1) remaining
          (report cfg pool1 pr.endpoint false now) (some pr.endpoint) parseErrs
          (trace1 ++ [.reportedFailure pr.endpoint])
      | .failed .timeout =>
        retryGo cfg mk fetch now (attempt + 1) remaining
          (report cfg pool1 pr.endpoint false now) none parseErrs
          (trace1 ++ [.reportedFailure pr.endpoint])
      | .failed .network =>
        retryGo cfg mk fetch now (attempt + 1) remaining
          (report cfg pool1 pr.endpoint false now) none parseErrs
          (trace1 ++ [.reportedFailure pr.endpoint])
      | .content raw =>
        match parse mk raw now with
        | .ok rec =>
          ⟨.ok rec, report cfg pool1 pr.endpoint true now,
            trace1 ++ [.reportedSuccess pr.endpoint]⟩
        | .error _ =>
          if 1 ≤ parseErrs then ⟨.error .exhausted, pool1, trace1⟩
          else retryGo cfg mk fetch now (attempt + 1) remaining pool1 none
            (parseErrs + 1) trace1

/-- Modelled from the spec: `executeWithRetry(product) ->
ScrapedRecord | TerminalFailure` of section 4.4, with the fetch executor
injected. -/
def executeWithRetry (cfg : CoreConfig) (mk : Marketplace)
    (fetch : Nat → FetchResult) (now : Nat) (pool : List ProxyRecord) :
    RetryResult :=
  retryGo cfg mk fetch now 1 cfg.maxAttempts pool none 0 []

/-! ### Scrape Scheduler (spec section 4.5) -/

/-- Completion outcome a job reports back to the scheduler. -/
inductive JobOutcome
  | success (rec : ScrapedRecord)
  | failure (t : TerminalFailure)
deriving DecidableEq, Repr

/-- Modelled from the spec: the scheduler's product-state update on job
completion (section 4.5) — success resets failures and refreshes price and
timestamp; exhausted increments the failure count and degrades to error only
past the threshold; capacity changes nothing, not even last_checked. -/
def onCompletion (cfg : CoreConfig) (p : Product) (o : JobOutcome) (now : Nat) :
    Product :=
  match o with
  | .success rec =>
    { p with current_price := rec.price, last_checked := now, status := .active,
             consecutive_failure_count := 0 }
  | .failure .exhausted =>
    let n := p.consecutive_failure_count + 1
    { p with consecutive_failure_count := n,
             last_checked := now,
             status := if cfg.failureThreshold < n then .error else p.status }
  | .failure .capacity => p

/-- Modelled from the spec: a due product — active and past its check
interval. -/
def isDue (now : Nat) (p : Product) : Bool :=
  decide (p.status = .active ∧ p.last_checked + p.check_interval ≤ now)

/-- Modelled from the spec: scheduler state — the tracked products and the
ids of products with a running job (the per-product in-flight guard). -/
structure SchedState where
  products : List Product
  inflight : List Nat
deriving DecidableEq, Repr

/-- Insertion step of the staleness sort (earliest last_checked first). -/
def insertByStaleness (p : Product) : List Product → List Product
  | [] => [p]
  | q :: rest =>
    if p.last_checked ≤ q.last_checked then p :: q :: rest
    else q :: insertByStaleness p rest

/-- Modelled from the spec: dispatch-order tie-break — earliest last_checked
first (staleness priority). -/
def sortByStaleness : List Product → List Product
  | [] => []
  | p :: rest => insertByStaleness p (sortByStaleness rest)

/-- Increment one marketplace's in-flight count. -/
def bump (counts : Marketplace → Nat) (mk : Marketplace) : Marketplace → Nat :=
  fun m => if m = mk then counts m + 1 else counts m

/-- Modelled from the spec: greedy dispatch selection bounded by the global
slot budget and the per-marketplace cap. -/
def pickJobs (cfg : CoreConfig) :
    (Marketplace → Nat) → Nat → List Product → List Product
  | _, _, [] => []
  | _, 0, _ :: _ => []
  | counts, s + 1, p :: rest =>
    if counts p.marketplace < cfg.perMarketLimit then
      p :: pickJobs cfg (bump counts p.marketplace) s rest
    else
      pickJobs cfg counts (s + 1) rest

/-- In-flight jobs per marketplace. -/
def marketCount (st : SchedState) (mk : Marketplace) : Nat :=
  (st.products.filter (fun p =>
    decide (p.id ∈ st.inflight ∧ p.marketplace = mk))).length

/-- Due products without a running job, staleness-sorted. -/
def eligibleNow (st : SchedState) (now : Nat) : List Product :=
  sortByStaleness (st.products.filter (fun p =>
    isDue now p && decide (p.id ∉ st.inflight)))

/-- Modelled from the spec: one `tick()` of section 4.5 — dispatch due
products, skipping those with a running job, bounded by the global and
per-marketplace concurrency limits; returns the new state and the ids of
the dispatched products. -/
def tick (cfg : CoreConfig) (st : SchedState) (now : Nat) :
    SchedState × List Nat :=
  let chosen := pickJobs cfg (marketCount st) (cfg.globalLimit - st.inflight.length)
    (eligibleNow st now)
  let ids := chosen.map (fun p => p.id)
  ({ st with inflight := ids ++ st.inflight }, ids)

/-- Modelled from the spec: one worker job — run the retry controller and,
only on success, feed the record to the Price-Change Engine; terminal
failures leave the engine state untouched. -/
def runJob (cfg : CoreConfig) (engine : EngineState) (pool : List ProxyRecord)
    (p : Product) (fetch : Nat → FetchResult) (now : Nat) :
    Option AlertEvent × EngineState × RetryResult :=
  let res := executeWithRetry cfg p.marketplace fetch now pool
  match res.outcome with
  | .ok rec =>
    let (a, st') := evaluate cfg engine p rec
    (a, st', res)
  | .error _ => (none, engine, res)

/-! ### Frontend pause/resume toggle (src/frontend/src/components/ProductList.js) -/

/-- Status sent by the pause/resume toggle of ProductList.js, line 215:
the payload is paused when the current status is active, and active for
every other current status. -/
def toggleStatusTarget (status : Status) : Status :=
  if status = .active then .paused else .active

/-! ### Trace observations and concrete fixtures -/

/-- Whether a trace event is a scrape attempt. -/
def isAttemptEv : TraceEv → Bool
  | .attempted _ _ => true
  | _ => false

/-- Number of attempts recorded in a trace. -/
def attemptCount (tr : List TraceEv) : Nat :=
  (tr.filter isAttemptEv).length

/-- All injected fetch attempts yield content whose parse fails. -/
def parseFailing (mk : Marketplace) (fetch : Nat → FetchResult) (now : Nat) : Prop :=
  ∀ n, ∃ raw, fetch n = .content raw ∧ ∃ e, parse mk raw now = .error e

/-- A configuration with the spec's default thresholds, for concrete runs. -/
def cfgW : CoreConfig :=
  { percentDropThreshold := 10, dedupWindow := 24, maxAttempts := 3,
    failureThreshold := 3, proxyFailThreshold := 3, backoffBase := 1,
    backoffCap := 64, globalLimit := 10, perMarketLimit := 4 }

/-- A concrete tracked product with a target price of 50.00. -/
def prodW : Product :=
  { id := 1, url := "u", marketplace := .amazon, target_price := some 5000,
    check_interval := 6, status := .active, current_price := 5500,
    last_checked := 0, consecutive_failure_count := 0 }

/-- Engine state holding the spec example's history of 60.00 and 55.00. -/
def engineW : EngineState :=
  { history := [{ product_id := 1, price := 5500, in_stock := true, scraped_at := 2 },
                { product_id := 1, price := 6000, in_stock := true, scraped_at := 1 }],
    emitted := [] }

/-- A concrete two-proxy pool, both healthy. -/
def poolW : List ProxyRecord :=
  [{ endpoint := 1, kind := .residential, consecutive_failures := 0,
     cooldown_until := 0, last_used_at := 5 },
   { endpoint := 2, kind := .datacenter, consecutive_failures := 0,
     cooldown_until := 0, last_used_at := 3 }]

/-- A fetch sequence whose attempt outcomes are timeout, blocked, success. -/
def fetchW : Nat → FetchResult
  | 1 => .failed .timeout
  | 2 => .failed .blocked
  | _ => .content { priceText := some "49.99", outOfStockSignal := false,
                    title := some "X", image_url := none }

/-- A fetch sequence every attempt of which parses to a zero price. -/
def fetchZeroW : Nat → FetchResult
  | _ => .content { priceText := some "$0.00", outOfStockSignal := false,
                    title := none, image_url := none }

/-- A concrete scheduler state: product 2 has a running job. -/
def schedW : SchedState :=
  { products :=
      [{ id := 1, url := "u", marketplace := .amazon, target_price := none,
         check_interval := 5, status := .active, current_price := 100,
         last_checked := 0, consecutive_failure_count := 0 },
       { id := 2, url := "v", marketplace := .ebay, target_price := none,
         check_interval := 5, status := .active, current_price := 100,
         last_checked := 3, consecutive_failure_count := 0 },
       { id := 3, url := "w", marketplace := .amazon, target_price := none,
         check_interval := 5, status := .paused, current_price := 100,
         last_checked := 0, consecutive_failure_count := 0 }],
    inflight := [2] }

/-! ## Helper lemmas -/

lemma evaluate_fst (cfg : CoreConfig) (st : EngineState) (p : Product)
    (r : ScrapedRecord) :
    (evaluate cfg st p r).1 =
      match rawTrigger cfg p (productHistory st p.id) r with
      | none => none
      | some rsn =>
        if dedupBlocked st.emitted p.id rsn r.scraped_at cfg.dedupWindow then none
        else some { product_id := p.id, old_price := p.current_price,
                    new_price := r.price, trigger_reason := rsn,
                    dedup_key := (p.id, rsn) } := rfl

lemma evaluate_snd_emitted (cfg : CoreConfig) (st : EngineState) (p : Product)
    (r : ScrapedRecord) :
    (evaluate cfg st p r).2.emitted =
      match (evaluate cfg st p r).1 with
      | some a => (p.id, a.trigger_reason, r.scraped_at) :: st.emitted
      | none => st.emitted := rfl

lemma rawTrigger_eq_target_iff (cfg : CoreConfig) (p : Product)
    (hist : List PriceSnapshot) (r : ScrapedRecord) :
    rawTrigger cfg p hist r = some .target_reached ↔ targetHit p r = true := by
  cases h1 : targetHit p r
  · unfold rawTrigger
    rw [h1]
    simp
    split <;> simp
  · unfold rawTrigger
    rw [h1]
    simp

lemma evaluate_emits_of_raw (cfg : CoreConfig) (st : EngineState) (p : Product)
    (r : ScrapedRecord) (rsn : TriggerReason)
    (hr : rawTrigger cfg p (productHistory st p.id) r = some rsn)
    (hb : dedupBlocked st.emitted p.id rsn r.scraped_at cfg.dedupWindow = false) :
    (evaluate cfg st p r).1.map AlertEvent.trigger_reason = some rsn := by
  rw [evaluate_fst, hr]
  simp [hb]

lemma evaluate_raw_of_emits (cfg : CoreConfig) (st : EngineState) (p : Product)
    (r : ScrapedRecord) (rsn : TriggerReason)
    (h : (evaluate cfg st p r).1.map AlertEvent.trigger_reason = some rsn) :
    rawTrigger cfg p (productHistory st p.id) r = some rsn ∧
    dedupBlocked st.emitted p.id rsn r.scraped_at cfg.dedupWindow = false := by
  rw [evaluate_fst] at h
  rcases hr : rawTrigger cfg p (productHistory st p.id) r with _ | rsn'
  · rw [hr] at h
    simp at h
  · rw [hr] at h
    by_cases hb : dedupBlocked st.emitted p.id rsn' r.scraped_at cfg.dedupWindow = true
    · simp [hb] at h
    · simp only [Bool.not_eq_true] at hb
      simp [hb] at h
      subst h
      exact ⟨rfl, hb⟩

/-! ## Claim theorems -/

/-- C1: with the target price set and no suppressing dedup entry, evaluate
emits a target_reached alert exactly when the new price is at or below the
target while the previous current price was strictly above it; a product
already at or below target never re-emits target_reached; and the target
rule is decided before the new-low and percent-drop rules. -/
theorem evaluate_target_reached_edge (cfg : CoreConfig) (st : EngineState)
    (p : Product) (r : ScrapedRecord) (t : Nat)
    (ht : p.target_price = some t)
    (hd : dedupBlocked st.emitted p.id .target_reached r.scraped_at cfg.dedupWindow = false) :
    ((evaluate cfg st p r).1.map AlertEvent.trigger_reason = some .target_reached ↔
      r.price ≤ t ∧ t < p.current_price)
    ∧ (p.current_price ≤ t →
        (evaluate cfg st p r).1.map AlertEvent.trigger_reason ≠ some .target_reached)
    ∧ (r.price ≤ t ∧ t < p.current_price →
        rawTrigger cfg p (productHistory st p.id) r = some .target_reached) := by
  have hcond : targetHit p r = true ↔ (r.price ≤ t ∧ t < p.current_price) := by
    simp [targetHit, ht]
  have hmain : (evaluate cfg st p r).1.map AlertEvent.trigger_reason = some .target_reached ↔
      r.price ≤ t ∧ t < p.current_price := by
    constructor
    · intro h
      have := (evaluate_raw_of_emits cfg st p r _ h).1
      exact hcond.mp ((rawTrigger_eq_target_iff cfg p _ r).mp this)
    · intro hc
      exact evaluate_emits_of_raw cfg st p r _
        ((rawTrigger_eq_target_iff cfg p _ r).mpr (hcond.mpr hc)) hd
  refine ⟨hmain, ?_, ?_⟩
  · intro hle h
    have := hmain.mp h
    omega
  · intro hc
    exact (rawTrigger_eq_target_iff cfg p _ r).mpr (hcond.mpr hc)

/-- C1 witness: the spec's worked example (target 50.00, previous price
55.00, new price 48.00) emits target_reached. -/
theorem evaluate_target_reached_edge_check :
    prodW.target_price = some 5000 ∧
    ((evaluate cfgW engineW prodW
        { price := 4800, in_stock := true, title := none, image_url := none,
          scraped_at := 3 }).1.map AlertEvent.trigger_reason = some .target_reached ↔
      4800 ≤ 5000 ∧ 5000 < 5500) :=
  ⟨rfl, (evaluate_target_reached_edge cfgW engineW prodW _ 5000 rfl (by decide)).1⟩

/-- C2: once an alert for a product and trigger reason is on record, an
evaluate call within the cooldown window never emits that reason again for
that product; the dedup log survives evaluate, and every emission is
recorded in it. -/
theorem evaluate_dedup_suppression (cfg : CoreConfig) (st : EngineState)
    (p : Product) (r : ScrapedRecord) (rsn : TriggerReason) (t0 : Nat)
    (hmem : (p.id, rsn, t0) ∈ st.emitted)
    (hwin : r.scraped_at < t0 + cfg.dedupWindow) :
    ((evaluate cfg st p r).1.map AlertEvent.trigger_reason ≠ some rsn)
    ∧ (∀ e ∈ st.emitted, e ∈ (evaluate cfg st p r).2.emitted)
    ∧ (∀ a, (evaluate cfg st p r).1 = some a →
        (p.id, a.trigger_reason, r.scraped_at) ∈ (evaluate cfg st p r).2.emitted) := by
  have hblocked : dedupBlocked st.emitted p.id rsn r.scraped_at cfg.dedupWindow = true := by
    unfold dedupBlocked
    rw [List.any_eq_true]
    exact ⟨(p.id, rsn, t0), hmem, by simp [hwin]⟩
  refine ⟨?_, ?_, ?_⟩
  · intro h
    have := (evaluate_raw_of_emits cfg st p r rsn h).2
    rw [hblocked] at this
    exact absurd this (by simp)
  · intro e he
    rw [evaluate_snd_emitted]
    cases h : (evaluate cfg st p r).1
    · exact he
    · exact List.mem_cons_of_mem _ he
  · intro a ha
    rw [evaluate_snd_emitted, ha]
    exact List.mem_cons_self _ _

/-- C2 witness: after the worked example's target_reached at time 3, the
repeat evaluate at price 47.00 within the 24-hour window emits nothing. -/
theorem evaluate_dedup_suppression_check :
    ((1, TriggerReason.target_reached, 3) ∈
      ([((1 : Nat), TriggerReason.target_reached, (3 : Nat))] :
        List (Nat × TriggerReason × Nat))) ∧
    (evaluate cfgW
        { history := [{ product_id := 1, price := 4800, in_stock := true, scraped_at := 3 },
                      { product_id := 1, price := 5500, in_stock := true, scraped_at := 2 },
                      { product_id := 1, price := 6000, in_stock := true, scraped_at := 1 }],
          emitted := [(1, .target_reached, 3)] }
        prodW
        { price := 4700, in_stock := true, title := none, image_url := none,
          scraped_at := 4 }).1.map AlertEvent.trigger_reason ≠ some .target_reached :=
  ⟨by decide, (evaluate_dedup_suppression cfgW _ prodW _ _ 3 (by decide) (by decide)).1⟩

/-- C3: every evaluate call prepends exactly one snapshot carrying the
record's price, stock flag and timestamp for that product, whether or not
an alert fires. -/
theorem evaluate_appends_one_snapshot (cfg : CoreConfig) (st : EngineState)
    (p : Product) (r : ScrapedRecord) :
    (evaluate cfg st p r).2.history = mkSnapshot p r :: st.history
    ∧ (mkSnapshot p r).product_id = p.id
    ∧ (mkSnapshot p r).price = r.price
    ∧ (mkSnapshot p r).in_stock = r.in_stock
    ∧ (mkSnapshot p r).scraped_at = r.scraped_at :=
  ⟨rfl, rfl, rfl, rfl, rfl⟩

/-- C6: an exhausted terminal failure increments the consecutive failure
count; the product stays active while the count is within the threshold,
and error status is reachable only from a prior error or from an exhausted
failure whose incremented count exceeds the threshold. -/
theorem status_error_requires_threshold (cfg : CoreConfig) (p : Product)
    (now : Nat) :
    ((onCompletion cfg p (.failure .exhausted) now).consecutive_failure_count =
      p.consecutive_failure_count + 1)
    ∧ (p.status = .active → p.consecutive_failure_count + 1 ≤ cfg.failureThreshold →
        (onCompletion cfg p (.failure .exhausted) now).status = .active)
    ∧ (∀ o, (onCompletion cfg p o now).status = .error →
        p.status = .error ∨
          (o = .failure .exhausted ∧
            cfg.failureThreshold < p.consecutive_failure_count + 1)) := by
  refine ⟨rfl, ?_, ?_⟩
  · intro hact hle
    simp only [onCompletion]
    rw [if_neg (by omega), hact]
  · intro o ho
    match o with
    | .success rec =>
      simp [onCompletion] at ho
    | .failure .capacity =>
      exact Or.inl ho
    | .failure .exhausted =>
      simp only [onCompletion] at ho
      by_cases hc : cfg.failureThreshold < p.consecutive_failure_count + 1
      · exact Or.inr ⟨rfl, hc⟩
      · rw [if_neg hc] at ho
        exact Or.inl ho

/-- C6 witness: one exhausted failure on a healthy product with the default
threshold 3 leaves it active. -/
theorem status_error_requires_threshold_check :
    (onCompletion cfgW prodW (.failure .exhausted) 50).status = Status.active :=
  (status_error_requires_threshold cfgW prodW 50).2.1 rfl (by decide)

/-- C7: a capacity terminal failure changes no field of the product record
(in particular last_checked is not advanced), so a product due at dispatch
time is still due at any later tick. -/
theorem capacity_is_frame_preserving (cfg : CoreConfig) (p : Product)
    (now now' : Nat) (hd : isDue now p = true) (hle : now ≤ now') :
    onCompletion cfg p (.failure .capacity) now = p
    ∧ isDue now' (onCompletion cfg p (.failure .capacity) now) = true := by
  refine ⟨rfl, ?_⟩
  show isDue now' p = true
  simp only [isDue, decide_eq_true_eq] at hd ⊢
  exact ⟨hd.1, le_trans hd.2 hle⟩

/-- C7 witness: a due product hit by a capacity failure is unchanged and
still due at the next tick. -/
theorem capacity_is_frame_preserving_check :
    isDue 10 prodW = true ∧ (10 : Nat) ≤ 11 ∧
    onCompletion cfgW prodW (.failure .capacity) 10 = prodW ∧
    isDue 11 (onCompletion cfgW prodW (.failure .capacity) 10) = true :=
  ⟨by decide, by decide,
    (capacity_is_frame_preserving cfgW prodW 10 11 (by decide) (by decide)).1,
    (capacity_is_frame_preserving cfgW prodW 10 11 (by decide) (by decide)).2⟩

/-- C10: the frontend pause/resume toggle sends paused for an active
product and active for any other status, so resume moves an error product
directly to active. -/
theorem toggle_status_payload (s : Status) (h : s ≠ .active) :
    toggleStatusTarget .active = .paused ∧ toggleStatusTarget s = .active := by
  refine ⟨rfl, ?_⟩
  simp [toggleStatusTarget, h]

/-- C10 witness: clicking resume on an error product sends active. -/
theorem toggle_status_payload_check :
    Status.error ≠ Status.active ∧
    (toggleStatusTarget .active = .paused ∧
      toggleStatusTarget .error = .active) :=
  ⟨by decide, toggle_status_payload .error (by decide)⟩


lemma pickBest_mem : ∀ {l : List ProxyRecord} {pr : ProxyRecord},
    pickBest l = some pr → pr ∈ l := by
  intro l
  induction l with
  | nil => intro pr h; simp [pickBest] at h
  | cons q rest ih =>
    intro pr h
    unfold pickBest at h
    cases hr : pickBest rest with
    | none =>
      rw [hr] at h
      simp at h
      subst h
      exact List.mem_cons_self _ _
    | some b =>
      rw [hr] at h
      simp at h
      by_cases hp : preferredOver b q = true
      · rw [if_pos hp] at h
        subst h
        exact List.mem_cons_of_mem _ (ih hr)
      · rw [if_neg hp] at h
        subst h
        exact List.mem_cons_self _ _

lemma acquire_cooldown_le (pool : List ProxyRecord) (now : Nat)
    (pr : ProxyRecord) (h : acquire pool now = some pr) :
    pr.cooldown_until ≤ now := by
  have hmem := pickBest_mem h
  have := List.of_mem_filter hmem
  simpa [eligibleProxy] using this

/-- C5: acquire never returns a proxy whose cooldown lies in the future,
and a failure report that crosses the failure threshold puts the proxy on a
cooldown strictly beyond now, so that record cannot be acquired again until
the cooldown expires. -/
theorem acquire_never_returns_cooling (cfg : CoreConfig)
    (pool : List ProxyRecord) (now : Nat) (q : ProxyRecord)
    (hbase : 0 < cfg.backoffBase) (hcap : 0 < cfg.backoffCap)
    (hcross : cfg.proxyFailThreshold < q.consecutive_failures + 1) :
    (∀ pr, acquire pool now = some pr → pr.cooldown_until ≤ now)
    ∧ (report cfg pool q.endpoint false now =
        pool.map (fun x => if x.endpoint = q.endpoint then failUpdate cfg now x else x))
    ∧ now < (failUpdate cfg now q).cooldown_until
    ∧ (∀ t pool2, t < (failUpdate cfg now q).cooldown_until →
        acquire pool2 t ≠ some (failUpdate cfg now q)) := by
  have hcd : (failUpdate cfg now q).cooldown_until =
      now + backoff cfg (q.consecutive_failures + 1) := by
    simp [failUpdate, hcross]
  have hpos : 0 < backoff cfg (q.consecutive_failures + 1) := by
    unfold backoff
    have h1 : 0 < cfg.backoffBase * 2 ^ (q.consecutive_failures + 1) :=
      Nat.mul_pos hbase (Nat.pos_pow_of_pos _ (by omega))
    omega
  refine ⟨fun pr h => acquire_cooldown_le pool now pr h, rfl, ?_, ?_⟩
  · rw [hcd]; omega
  · intro t pool2 hlt hacq
    have := acquire_cooldown_le pool2 t _ hacq
    omega

lemma insertByStaleness_perm (p : Product) (l : List Product) :
    (insertByStaleness p l).Perm (p :: l) := by
  induction l with
  | nil => simp [insertByStaleness]
  | cons q rest ih =>
    unfold insertByStaleness
    by_cases h : p.last_checked ≤ q.last_checked
    · rw [if_pos h]
    · rw [if_neg h]
      exact List.Perm.trans (List.Perm.cons q ih) (List.Perm.swap p q rest)

lemma sortByStaleness_perm (l : List Product) : (sortByStaleness l).Perm l := by
  induction l with
  | nil => simp [sortByStaleness]
  | cons p rest ih =>
    unfold sortByStaleness
    exact List.Perm.trans (insertByStaleness_perm p (sortByStaleness rest))
      (List.Perm.cons p ih)

lemma pickJobs_sublist (cfg : CoreConfig) :
    ∀ (l : List Product) (counts : Marketplace → Nat) (slots : Nat),
    (pickJobs cfg counts slots l).Sublist l := by
  intro l
  induction l with
  | nil => intro counts slots; simp [pickJobs]
  | cons p rest ih =>
    intro counts slots
    match slots with
    | 0 => exact List.nil_sublist _
    | s + 1 =>
      unfold pickJobs
      by_cases h : counts p.marketplace < cfg.perMarketLimit
      · rw [if_pos h]
        exact List.Sublist.cons₂ p (ih _ s)
      · rw [if_neg h]
        exact List.Sublist.cons p (ih counts (s + 1))

/-- C9: tick never dispatches a product that already has a running job
(duplicate-due detection is a no-op for in-flight products), dispatched ids
are duplicate-free, and the in-flight guard list stays duplicate-free, so at
most one job per product id is in flight. -/
theorem tick_no_duplicate_dispatch (cfg : CoreConfig) (st : SchedState) (now : Nat)
    (hids : (st.products.map (fun p => p.id)).Nodup)
    (hin : st.inflight.Nodup) :
    (∀ i ∈ (tick cfg st now).2, i ∉ st.inflight)
    ∧ (tick cfg st now).2.Nodup
    ∧ (tick cfg st now).1.inflight.Nodup := by
  have hchosen : (pickJobs cfg (marketCount st) (cfg.globalLimit - st.inflight.length)
      (eligibleNow st now)).Sublist (eligibleNow st now) :=
    pickJobs_sublist cfg _ _ _
  have hperm : (eligibleNow st now).Perm
      (st.products.filter (fun p => isDue now p && decide (p.id ∉ st.inflight))) :=
    sortByStaleness_perm _
  have hnotin : ∀ i ∈ (tick cfg st now).2, i ∉ st.inflight := by
    intro i hi
    simp only [tick] at hi
    rcases List.mem_map.mp hi with ⟨p, hp, rfl⟩
    have hpe : p ∈ eligibleNow st now := hchosen.subset hp
    have hpf := hperm.subset hpe
    have := List.of_mem_filter hpf
    simp only [Bool.and_eq_true, decide_eq_true_eq] at this
    exact this.2
  have hnodup2 : (tick cfg st now).2.Nodup := by
    simp only [tick]
    have h1 : ((pickJobs cfg (marketCount st) (cfg.globalLimit - st.inflight.length)
        (eligibleNow st now)).map (fun p => p.id)).Sublist
        ((eligibleNow st now).map (fun p => p.id)) := hchosen.map _
    have h2 : ((eligibleNow st now).map (fun p => p.id)).Perm
        ((st.products.filter (fun p => isDue now p && decide (p.id ∉ st.inflight))).map
          (fun p => p.id)) := hperm.map _
    have h3 : ((st.products.filter (fun p => isDue now p && decide (p.id ∉ st.inflight))).map
        (fun p => p.id)).Sublist (st.products.map (fun p => p.id)) :=
      (List.filter_sublist _).map _
    exact h1.nodup (h2.nodup_iff.mpr (h3.nodup hids))
  refine ⟨hnotin, hnodup2, ?_⟩
  have : (tick cfg st now).1.inflight = (tick cfg st now).2 ++ st.inflight := rfl
  rw [this]
  exact List.Nodup.append hnodup2 hin (List.disjoint_left.mpr hnotin)

lemma acquireAvoiding_ne (pool : List ProxyRecord) (now : Nat) (e : Nat)
    (pr : ProxyRecord) (h : acquireAvoiding pool now (some e) = some pr) :
    pr.endpoint ≠ e := by
  have hmem := pickBest_mem h
  have := List.of_mem_filter hmem
  simp only [Bool.and_eq_true, decide_eq_true_eq] at this
  exact this.2

lemma retryGo_capacity (cfg : CoreConfig) (mk : Marketplace)
    (fetch : Nat → FetchResult) (now attempt remaining : Nat)
    (pool : List ProxyRecord) (avoid : Option Nat) (parseErrs : Nat)
    (trace : List TraceEv) (hrem : 0 < remaining)
    (ha : acquireAvoiding pool now avoid = none) :
    retryGo cfg mk fetch now attempt remaining pool avoid parseErrs trace =
      ⟨.error .capacity, pool, trace⟩ := by
  match remaining, hrem with
  | r + 1, _ => simp only [retryGo, ha]

lemma retryGo_timeout (cfg : CoreConfig) (mk : Marketplace)
    (fetch : Nat → FetchResult) (now attempt remaining : Nat)
    (pool : List ProxyRecord) (avoid : Option Nat) (parseErrs : Nat)
    (trace : List TraceEv) (pr : ProxyRecord) (hrem : 0 < remaining)
    (ha : acquireAvoiding pool now avoid = some pr)
    (hf : fetch attempt = .failed .timeout) :
    retryGo cfg mk fetch now attempt remaining pool avoid parseErrs trace =
      retryGo cfg mk fetch now (attempt + 1) (remaining - 1)
        (report cfg (markUsed pool pr.endpoint now) pr.endpoint false now)
        none parseErrs
        (trace ++ [.acquired pr.endpoint, .attempted attempt pr.endpoint,
                   .reportedFailure pr.endpoint]) := by
  match remaining, hrem with
  | r + 1, _ => simp [retryGo, ha, hf]

lemma retryGo_blocked (cfg : CoreConfig) (mk : Marketplace)
    (fetch : Nat → FetchResult) (now attempt remaining : Nat)
    (pool : List ProxyRecord) (avoid : Option Nat) (parseErrs : Nat)
    (trace : List TraceEv) (pr : ProxyRecord) (hrem : 0 < remaining)
    (ha : acquireAvoiding pool now avoid = some pr)
    (hf : fetch attempt = .failed .blocked) :
    retryGo cfg mk fetch now attempt remaining pool avoid parseErrs trace =
      retryGo cfg mk fetch now (attempt + 1) (remaining - 1)
        (report cfg (markUsed pool pr.endpoint now) pr.endpoint false now)
        (some pr.endpoint) parseErrs
        (trace ++ [.acquired pr.endpoint, .attempted attempt pr.endpoint,
                   .reportedFailure pr.endpoint]) := by
  match remaining, hrem with
  | r + 1, _ => simp [retryGo, ha, hf]

lemma retryGo_success (cfg : CoreConfig) (mk : Marketplace)
    (fetch : Nat → FetchResult) (now attempt remaining : Nat)
    (pool : List ProxyRecord) (avoid : Option Nat) (parseErrs : Nat)
    (trace : List TraceEv) (pr : ProxyRecord) (raw : RawContent)
    (rec : ScrapedRecord) (hrem : 0 < remaining)
    (ha : acquireAvoiding pool now avoid = some pr)
    (hf : fetch attempt = .content raw)
    (hp : parse mk raw now = .ok rec) :
    retryGo cfg mk fetch now attempt remaining pool avoid parseErrs trace =
      ⟨.ok rec, report cfg (markUsed pool pr.endpoint now) pr.endpoint true now,
        trace ++ [.acquired pr.endpoint, .attempted attempt pr.endpoint,
                  .reportedSuccess pr.endpoint]⟩ := by
  match remaining, hrem with
  | r + 1, _ => simp [retryGo, ha, hf, hp]

/-- C4: with attempt outcomes timeout, blocked, success and three
successful acquisitions, executeWithRetry performs exactly three attempts,
each preceded by an acquire; the timeout and blocked attempts report proxy
failure; the blocked attempt forces a different proxy next; and the returned
record is the parsed content of the third attempt. -/
theorem retry_timeout_blocked_success (cfg : CoreConfig) (mk : Marketplace)
    (fetch : Nat → FetchResult) (now : Nat) (pool : List ProxyRecord)
    (raw : RawContent) (rec : ScrapedRecord) (p1 p2 p3 : ProxyRecord)
    (hmax : cfg.maxAttempts = 3)
    (h1 : fetch 1 = .failed .timeout)
    (h2 : fetch 2 = .failed .blocked)
    (h3 : fetch 3 = .content raw)
    (hp : parse mk raw now = .ok rec)
    (ha1 : acquireAvoiding pool now none = some p1)
    (ha2 : acquireAvoiding
        (report cfg (markUsed pool p1.endpoint now) p1.endpoint false now)
        now none = some p2)
    (ha3 : acquireAvoiding
        (report cfg (markUsed
            (report cfg (markUsed pool p1.endpoint now) p1.endpoint false now)
            p2.endpoint now) p2.endpoint false now)
        now (some p2.endpoint) = some p3) :
    (executeWithRetry cfg mk fetch now pool).outcome = .ok rec
    ∧ (executeWithRetry cfg mk fetch now pool).trace =
        [.acquired p1.endpoint, .attempted 1 p1.endpoint, .reportedFailure p1.endpoint,
         .acquired p2.endpoint, .attempted 2 p2.endpoint, .reportedFailure p2.endpoint,
         .acquired p3.endpoint, .attempted 3 p3.endpoint, .reportedSuccess p3.endpoint]
    ∧ attemptCount (executeWithRetry cfg mk fetch now pool).trace = 3
    ∧ p3.endpoint ≠ p2.endpoint := by
  have e1 : executeWithRetry cfg mk fetch now pool =
      retryGo cfg mk fetch now 2 2
        (report cfg (markUsed pool p1.endpoint now) p1.endpoint false now) none 0
        [.acquired p1.endpoint, .attempted 1 p1.endpoint, .reportedFailure p1.endpoint] := by
    unfold executeWithRetry
    rw [hmax, retryGo_timeout cfg mk fetch now 1 3 pool none 0 [] p1 (by omega) ha1 h1]
    rfl
  have e2 : retryGo cfg mk fetch now 2 2
      (report cfg (markUsed pool p1.endpoint now) p1.endpoint false now) none 0
      [.acquired p1.endpoint, .attempted 1 p1.endpoint, .reportedFailure p1.endpoint] =
      retryGo cfg mk fetch now 3 1
        (report cfg (markUsed
          (report cfg (markUsed pool p1.endpoint now) p1.endpoint false now)
          p2.endpoint now) p2.endpoint false now) (some p2.endpoint) 0
        [.acquired p1.endpoint, .attempted 1 p1.endpoint, .reportedFailure p1.endpoint,
         .acquired p2.endpoint, .attempted 2 p2.endpoint, .reportedFailure p2.endpoint] := by
    rw [retryGo_blocked cfg mk fetch now 2 2 _ none 0 _ p2 (by omega) ha2 h2]
    rfl
  have e3 : retryGo cfg mk fetch now 3 1
      (report cfg (markUsed
        (report cfg (markUsed pool p1.endpoint now) p1.endpoint false now)
        p2.endpoint now) p2.endpoint false now) (some p2.endpoint) 0
      [.acquired p1.endpoint, .attempted 1 p1.endpoint, .reportedFailure p1.endpoint,
       .acquired p2.endpoint, .attempted 2 p2.endpoint, .reportedFailure p2.endpoint] =
      ⟨.ok rec,
        report cfg (markUsed
          (report cfg (markUsed
            (report cfg (markUsed pool p1.endpoint now) p1.endpoint false now)
            p2.endpoint now) p2.endpoint false now)
          p3.endpoint now) p3.endpoint true now,
        [.acquired p1.endpoint, .attempted 1 p1.endpoint, .reportedFailure p1.endpoint,
         .acquired p2.endpoint, .attempted 2 p2.endpoint, .reportedFailure p2.endpoint,
         .acquired p3.endpoint, .attempted 3 p3.endpoint, .reportedSuccess p3.endpoint]⟩ := by
    rw [retryGo_success cfg mk fetch now 3 1 _ (some p2.endpoint) 0 _ p3 raw rec
      (by omega) ha3 h3 hp]
    rfl
  have hrun := (e1.trans e2).trans e3
  refine ⟨by rw [hrun], by rw [hrun], ?_, acquireAvoiding_ne _ _ _ _ ha3⟩
  rw [hrun]
  rfl

/-- C4 witness: a concrete timeout, blocked, success run over a
two-proxy pool returns the parsed 49.99 record after exactly 3 attempts. -/
theorem retry_timeout_blocked_success_check :
    (executeWithRetry cfgW .amazon fetchW 10 poolW).outcome =
      .ok { price := 4999, in_stock := true, title := some "X", image_url := none,
            scraped_at := 10 }
    ∧ attemptCount (executeWithRetry cfgW .amazon fetchW 10 poolW).trace = 3 := by
  have h := retry_timeout_blocked_success cfgW .amazon fetchW 10 poolW
    { priceText := some "49.99", outOfStockSignal := false, title := some "X",
      image_url := none }
    { price := 4999, in_stock := true, title := some "X", image_url := none,
      scraped_at := 10 }
    { endpoint := 2, kind := .datacenter, consecutive_failures := 0,
      cooldown_until := 0, last_used_at := 3 }
    { endpoint := 1, kind := .residential, consecutive_failures := 0,
      cooldown_until := 0, last_used_at := 5 }
    { endpoint := 2, kind := .datacenter, consecutive_failures := 1,
      cooldown_until := 0, last_used_at := 10 }
    rfl rfl rfl rfl (by decide) (by decide) (by decide) (by decide)
  exact ⟨h.1, h.2.2.1⟩

lemma markUsed_failures (pool : List ProxyRecord) (e : Nat) (now : Nat) :
    (markUsed pool e now).map (fun q => q.consecutive_failures) =
      pool.map (fun q => q.consecutive_failures) := by
  unfold markUsed
  rw [List.map_map]
  apply List.map_congr_left
  intro q _
  by_cases h : q.endpoint = e <;> simp [h]

lemma retryGo_parseFailing (cfg : CoreConfig) (mk : Marketplace)
    (fetch : Nat → FetchResult) (now : Nat)
    (hpf : parseFailing mk fetch now) :
    ∀ (remaining attempt : Nat) (pool : List ProxyRecord) (avoid : Option Nat)
      (parseErrs : Nat) (trace : List TraceEv),
      ((retryGo cfg mk fetch now attempt remaining pool avoid parseErrs trace).pool.map
          (fun q => q.consecutive_failures) =
        pool.map (fun q => q.consecutive_failures))
      ∧ (∃ t, (retryGo cfg mk fetch now attempt remaining pool avoid parseErrs
          trace).outcome = .error t) := by
  intro remaining
  induction remaining with
  | zero =>
    intro attempt pool avoid parseErrs trace
    refine ⟨rfl, TerminalFailure.exhausted, ?_⟩
    rfl
  | succ r ih =>
    intro attempt pool avoid parseErrs trace
    cases ha : acquireAvoiding pool now avoid with
    | none =>
      simp only [retryGo, ha]
      exact ⟨by trivial, TerminalFailure.capacity, by trivial⟩
    | some pr =>
      obtain ⟨raw, hraw, e, he⟩ := hpf attempt
      simp only [retryGo, ha, hraw, he]
      by_cases hpe : 1 ≤ parseErrs
      · rw [if_pos hpe]
        exact ⟨markUsed_failures pool pr.endpoint now, TerminalFailure.exhausted, rfl⟩
      · rw [if_neg hpe]
        obtain ⟨hcf, ht⟩ := ih (attempt + 1) (markUsed pool pr.endpoint now) none
          (parseErrs + 1)
          (trace ++ [.acquired pr.endpoint, .attempted attempt pr.endpoint])
        exact ⟨hcf.trans (markUsed_failures pool pr.endpoint now), ht⟩

/-- C8: parse returns a ParseError when the price is missing,
unparseable, or non-positive, and any returned record has a positive price;
a job that ends in terminal failure appends no snapshot (the engine history
is unchanged), and a run whose attempts all end in parse errors never
penalizes any proxy (all consecutive-failure counts are preserved) and
returns a terminal failure. -/
theorem parse_rejects_nonpositive_price (mk : Marketplace) (raw : RawContent)
    (now : Nat) (s : String) (v : Int) :
    (raw.priceText = none → parse mk raw now = .error .missingPrice)
    ∧ (raw.priceText = some s → normalizePrice s = none →
        parse mk raw now = .error .unparseablePrice)
    ∧ (raw.priceText = some s → normalizePrice s = some v → v ≤ 0 →
        parse mk raw now = .error .nonpositivePrice)
    ∧ (∀ rec, parse mk raw now = .ok rec → 0 < rec.price)
    ∧ (∀ cfg engine pool p fetch t,
        (executeWithRetry cfg p.marketplace fetch now pool).outcome = .error t →
        (runJob cfg engine pool p fetch now).2.1.history = engine.history)
    ∧ (∀ cfg fetch pool attempt remaining avoid parseErrs trace,
        parseFailing mk fetch now →
        ((retryGo cfg mk fetch now attempt remaining pool avoid parseErrs trace).pool.map
            (fun q => q.consecutive_failures) =
          pool.map (fun q => q.consecutive_failures))
        ∧ (∃ t, (retryGo cfg mk fetch now attempt remaining pool avoid parseErrs
            trace).outcome = .error t)) := by
  refine ⟨?_, ?_, ?_, ?_, ?_, ?_⟩
  · intro h
    simp [parse, h]
  · intro h hn
    simp [parse, h, hn]
  · intro h hn hv
    simp [parse, h, hn, hv]
  · intro rec hok
    rcases hpt : raw.priceText with _ | s'
    · simp [parse, hpt] at hok
    · rcases hnp : normalizePrice s' with _ | v'
      · simp [parse, hpt, hnp] at hok
      · by_cases hv : v' ≤ 0
        · simp [parse, hpt, hnp, hv] at hok
        · simp [parse, hpt, hnp, hv] at hok
          rw [← hok]
          show 0 < v'.toNat
          omega
  · intro cfg engine pool p fetch t hterm
    simp [runJob, hterm]
  · intro cfg fetch pool attempt remaining avoid parseErrs trace hpf
    exact retryGo_parseFailing cfg mk fetch now hpf remaining attempt pool avoid
      parseErrs trace

/-- C8 witness: a scrape whose extracted price is exactly zero is a
ParseError. -/
theorem parse_rejects_nonpositive_price_check :
    parse .amazon
      { priceText := some "$0.00", outOfStockSignal := false,
        title := none, image_url := none } 7 = .error .nonpositivePrice :=
  (parse_rejects_nonpositive_price .amazon
    { priceText := some "$0.00", outOfStockSignal := false, title := none,
      image_url := none } 7 "$0.00" 0).2.2.1 rfl (by decide) (by decide)

/-- C5 witness: a fourth consecutive failure with the default threshold 3
puts the proxy on a future cooldown. -/
theorem acquire_never_returns_cooling_check :
    (10 : Nat) <
      (failUpdate cfgW 10
        { endpoint := 7, kind := .datacenter, consecutive_failures := 3,
          cooldown_until := 0, last_used_at := 0 }).cooldown_until :=
  (acquire_never_returns_cooling cfgW poolW 10
    { endpoint := 7, kind := .datacenter, consecutive_failures := 3,
      cooldown_until := 0, last_used_at := 0 }
    (by decide) (by decide) (by decide)).2.2.1

/-- C9 witness: on a concrete state with product 2 in flight, the tick
dispatches no in-flight id and keeps the guard duplicate-free. -/
theorem tick_no_duplicate_dispatch_check :
    (∀ i ∈ (tick cfgW schedW 100).2, i ∉ schedW.inflight)
    ∧ (tick cfgW schedW 100).1.inflight.Nodup :=
  ⟨(tick_no_duplicate_dispatch cfgW schedW 100 (by decide) (by decide)).1,
   (tick_no_duplicate_dispatch cfgW schedW 100 (by decide) (by decide)).2.2⟩


end PriceTracker
